import Mathlib

/-!
Verification of the pyextrasafe core against its specification.

The development shallowly embeds the three source files of the repository:

* `additional.rs` — the singleton guard (`lock_pid_file_nogil`, `write_all`,
  `raise_errno`).  Syscalls are modelled by an environment `SysEnv` that
  supplies the result of each syscall invocation in order; the embedded code
  consumes one result per call it performs, so retries (or their absence) are
  observable.
* `rule_sets.rs` — the rule-set data model (`DataRuleSet` and the per-category
  data structures), the builder methods, `insert_sorted_fileno`, the
  structural comparison (`__richcmp__`) and hashing, and the policy fold
  `enable_to` generated by the `impl_subclass!` macro.  Calls into the
  external `extrasafe` crate builders are recorded as a trace of `PCall`s.
* `safety_ctx.rs` — `PySafetyContext`: the stored `PyList` of `Py<PyRuleSet>`
  pointers is modelled as a list of indices into a heap of rule-set values
  (a `Py<T>` is a reference-counted pointer into the Python object store, so
  appending it shares the object rather than copying it), and `to_context`,
  `apply_to_current_thread` and `apply_to_all_threads` are embedded over it.
-/

namespace PyExtraSafe

/-! ## Generic helpers -/

deriving instance DecidableEq for Except

/-- Concatenation of a list of chunks (used to account for the bytes written
by the `write_all` loop). -/
def joinl : List (List Nat) → List Nat
  | [] => []
  | c :: cs => c ++ joinl cs

theorem joinl_append (l1 l2 : List (List Nat)) :
    joinl (l1 ++ l2) = joinl l1 ++ joinl l2 := by
  induction l1 with
  | nil => simp [joinl]
  | cons c cs ih => simp [joinl, ih]

/-! ## `write_all` (src/additional.rs, lines 155-169)

The Rust loop calls `write(fd, contents)` repeatedly.  Each call is modelled
by one entry of a script `List WStep`: either the syscall fails with an errno,
or it reports an amount of bytes written.  The loop state is the remaining
buffer and the `had_zero` flag.  The model additionally returns the list of
chunks actually delivered to the file, so duplication or loss is expressible.
If the script is exhausted while the buffer is non-empty the model returns
`noFuel` (the behaviour of further, unspecified syscalls is not modelled). -/

/-- Result of one `write` syscall: failure with an errno, or a byte count. -/
inductive WStep
  | err (e : Nat)
  | ok (n : Nat)
deriving DecidableEq

/-- Outcome of the `write_all` loop. -/
inductive WOut
  | ok
  | fail (errno : Option Nat) (msg : String)
  | noFuel
deriving DecidableEq

/-- Embedding of `write_all` from src/additional.rs.  The `acc` argument
collects the chunks delivered so far.  A productive write consumes
`amount` bytes from the front of the remaining buffer (`contents[amount..]`
in the source); the kernel never reports more bytes than were requested, so
`List.take`/`List.drop` saturation is never exercised on real traces. -/
def write_all_go : List WStep → Bool → List Nat → List (List Nat) → WOut × List (List Nat)
  | _, _, [], acc => (.ok, acc)
  | [], _, _ :: _, acc => (.noFuel, acc)
  | .err e :: _, _, _ :: _, acc => (.fail (some e) "write to", acc)
  | .ok amount :: rest, had_zero, c :: cs, acc =>
    if 0 < amount then
      write_all_go rest false ((c :: cs).drop amount) (acc ++ [(c :: cs).take amount])
    else if !had_zero then
      write_all_go rest true (c :: cs) acc
    else
      (.fail none "write all data to", acc)

/-- Embedding of the `write_all` entry point: `had_zero` starts `false` and no
chunk has been delivered yet. -/
def write_all (script : List WStep) (contents : List Nat) : WOut × List (List Nat) :=
  write_all_go script false contents []

/-- Does the script contain two consecutive zero-byte write results? -/
def hasConsecZeros : List WStep → Bool
  | [] => false
  | [_] => false
  | a :: b :: rest =>
    (match a, b with
      | .ok 0, .ok 0 => true
      | _, _ => false) || hasConsecZeros (b :: rest)

theorem hasConsecZeros_cons (x : WStep) (s : List WStep)
    (h : hasConsecZeros s = true) : hasConsecZeros (x :: s) = true := by
  cases s with
  | nil => simp [hasConsecZeros] at h
  | cons b rest => simp [hasConsecZeros, h]

/-- Delivery invariant of the loop: on success, the delivered chunks extend
the previously delivered ones by exactly the remaining buffer. -/
theorem write_all_go_ok_join (s : List WStep) :
    ∀ hz contents acc chunks, write_all_go s hz contents acc = (.ok, chunks) →
      joinl chunks = joinl acc ++ contents := by
  induction s with
  | nil =>
    intro hz contents acc chunks h
    cases contents with
    | nil =>
      simp only [write_all_go] at h
      cases h
      simp
    | cons c cs => simp [write_all_go] at h
  | cons step rest ih =>
    intro hz contents acc chunks h
    cases contents with
    | nil =>
      simp only [write_all_go] at h
      cases h
      simp
    | cons c cs =>
      cases step with
      | err e => simp [write_all_go] at h
      | ok amount =>
        by_cases hamt : 0 < amount
        · rw [write_all_go, if_pos hamt] at h
          have := ih false ((c :: cs).drop amount) (acc ++ [(c :: cs).take amount]) chunks h
          rw [this, joinl_append]
          simp [joinl, List.take_append_drop]
        · cases hz with
          | false =>
            rw [write_all_go, if_neg hamt] at h
            simp only [Bool.not_false, if_pos] at h
            exact ih true (c :: cs) acc chunks h
          | true =>
            rw [write_all_go, if_neg hamt] at h
            simp at h

/-- Converse characterisation of `WriteIncomplete`: the loop can only return
the `(None, "write all data to")` error if the script contains two
consecutive zero-byte write results (the second disjunct covers re-entry with
`had_zero` already set, which at top level is impossible). -/
theorem write_all_go_incomplete_consec (s : List WStep) :
    ∀ hz contents acc chunks m,
      write_all_go s hz contents acc = (.fail none m, chunks) →
      hasConsecZeros s = true ∨ (hz = true ∧ ∃ t, s = .ok 0 :: t) := by
  induction s with
  | nil =>
    intro hz contents acc chunks m h
    cases contents with
    | nil => simp [write_all_go] at h
    | cons c cs => simp [write_all_go] at h
  | cons step rest ih =>
    intro hz contents acc chunks m h
    cases contents with
    | nil => simp [write_all_go] at h
    | cons c cs =>
      cases step with
      | err e => simp [write_all_go] at h
      | ok amount =>
        by_cases hamt : 0 < amount
        · rw [write_all_go, if_pos hamt] at h
          rcases ih false _ _ _ _ h with h1 | h1
          · exact Or.inl (hasConsecZeros_cons _ _ h1)
          · exact absurd h1.1 (by simp)
        · have hz0 : amount = 0 := by omega
          subst hz0
          cases hz with
          | false =>
            rw [write_all_go, if_neg hamt] at h
            simp only [Bool.not_false, if_pos] at h
            rcases ih true _ _ _ _ h with h1 | h1
            · exact Or.inl (hasConsecZeros_cons _ _ h1)
            · rcases h1.2 with ⟨t, ht⟩
              subst ht
              exact Or.inl (by simp [hasConsecZeros])
          | true =>
            exact Or.inr ⟨rfl, rest, rfl⟩

/-! ## `lock_pid_file_nogil` (src/additional.rs, lines 134-153)

The syscalls performed by the function are `openat2`, `flock`, `ftruncate`
and the `write` loop.  A `SysEnv` supplies, for each of the first three
syscalls, the list of results successive invocations would observe; the
embedded code consumes exactly one entry per call it actually performs, so
both retries and skipped calls are observable.  The `write` loop consumes the
`write_rs` script via `write_all_go`.  The file content starts as `file0`;
`ftruncate(fd, 0)` empties it and each productive `write` appends its chunk. -/

/-- Flag bit of `OFlags::RDWR` (x86-64 Linux value used by rustix). -/
def O_RDWR : Nat := 2

/-- Flag bit of `OFlags::CREATE` (`O_CREAT`). -/
def O_CREAT : Nat := 64

/-- Flag bit of `OFlags::NOCTTY`. -/
def O_NOCTTY : Nat := 256

/-- Flag bit of `OFlags::CLOEXEC`. -/
def O_CLOEXEC : Nat := 524288

/-- Flag bit of `OFlags::NOFOLLOW` (refuses a final symlink component;
not used by the source, needed to state claim C3). -/
def O_NOFOLLOW : Nat := 131072

/-- Flag bit of `ResolveFlags::NO_MAGICLINKS` (openat2). -/
def RESOLVE_NO_MAGICLINKS : Nat := 2

/-- Flag bit of `ResolveFlags::NO_SYMLINKS` (openat2; refuses every symlink
including a final one; not used by the source, needed to state claim C3). -/
def RESOLVE_NO_SYMLINKS : Nat := 4

/-- Errno of `EINTR`, a syscall interrupted by a signal. -/
def EINTR : Nat := 4

/-- Results the kernel would hand to successive invocations of each syscall.
Each invocation performed by the embedded code consumes one list entry. -/
structure SysEnv where
  open_rs : List (Except Nat Unit)
  flock_rs : List (Except Nat Unit)
  ftruncate_rs : List (Except Nat Unit)
  write_rs : List WStep

/-- Overall result of `lock_pid_file_nogil`: success (the locked fd),
failure with the optional errno and the message fragment of the failing
step, or `stuck` when the syscall-result environment is exhausted. -/
inductive NogilRes
  | ok
  | err (errno : Option Nat) (msg : String)
  | stuck
deriving DecidableEq

/-- Observable outcome of a `lock_pid_file_nogil` run: its result, the final
file content, the open flags and resolve flags passed to `openat2`, and
which of the later syscalls were invoked at all. -/
structure NogilOut where
  result : NogilRes
  file : List Nat
  oflags : Nat
  resolveFlags : Nat
  flockCalled : Bool
  ftruncateCalled : Bool
  writeCalled : Bool
deriving DecidableEq

/-- Open flags computed by `lock_pid_file_nogil`:
`OFlags::RDWR | OFlags::CREATE | OFlags::NOCTTY`, plus `OFlags::CLOEXEC`
when `cloexec` is set. -/
def nogil_oflags (cloexec : Bool) : Nat :=
  O_RDWR ||| O_CREAT ||| O_NOCTTY ||| (if cloexec then O_CLOEXEC else 0)

/-- Resolve flags passed to `openat2` by `lock_pid_file_nogil`:
exactly `ResolveFlags::NO_MAGICLINKS`. -/
def nogil_resolve_flags : Nat := RESOLVE_NO_MAGICLINKS

/-- Core of `lock_pid_file_nogil`: the `openat2` / `flock` / `ftruncate` /
`write_all` sequence, with early return on the first failure, exactly as in
the source.  Returns the result, the file content, and whether `flock`,
`ftruncate` and `write` were invoked. -/
def nogil_core (env : SysEnv) (contents : List Nat) (file0 : List Nat) :
    NogilRes × List Nat × Bool × Bool × Bool :=
  match env.open_rs.head? with
  | none => (.stuck, file0, false, false, false)
  | some (.error e) => (.err (some e) "open or create", file0, false, false, false)
  | some (.ok _) =>
    match env.flock_rs.head? with
    | none => (.stuck, file0, true, false, false)
    | some (.error e) => (.err (some e) "file lock", file0, true, false, false)
    | some (.ok _) =>
      match env.ftruncate_rs.head? with
      | none => (.stuck, file0, true, true, false)
      | some (.error e) => (.err (some e) "truncate", file0, true, true, false)
      | some (.ok _) =>
        match write_all env.write_rs contents with
        | (.ok, chunks) => (.ok, joinl chunks, true, true, true)
        | (.fail e m, chunks) => (.err e m, joinl chunks, true, true, true)
        | (.noFuel, chunks) => (.stuck, joinl chunks, true, true, true)

/-- Embedding of `lock_pid_file_nogil` from src/additional.rs. -/
def lock_pid_file_nogil (env : SysEnv) (cloexec : Bool) (contents : List Nat)
    (file0 : List Nat) : NogilOut :=
  let c := nogil_core env contents file0
  ⟨c.1, c.2.1, nogil_oflags cloexec, nogil_resolve_flags, c.2.2.1, c.2.2.2.1, c.2.2.2.2⟩

/-- Does an `openat2` call with these open flags and resolve flags refuse to
traverse a symbolic link in the final path component?  Modelled from the
documented openat2/open contract (the kernel interface is external to this
repository): a final symlink is refused exactly when `O_NOFOLLOW` is in the
open flags or `RESOLVE_NO_SYMLINKS` is in the resolve flags;
`RESOLVE_NO_MAGICLINKS` only refuses magic links (proc-style pseudo-links). -/
def refuses_final_symlink (oflags rflags : Nat) : Bool :=
  (oflags &&& O_NOFOLLOW != 0) || (rflags &&& RESOLVE_NO_SYMLINKS != 0)

/-- Does an `openat2` call with these resolve flags refuse to traverse magic
links?  Modelled from the documented openat2 contract. -/
def refuses_magiclinks (rflags : Nat) : Bool :=
  rflags &&& RESOLVE_NO_MAGICLINKS != 0

/-! ## `raise_errno` (src/additional.rs, lines 103-117)

`raise_errno` turns the `(Option<Errno>, &str)` failure of the no-GIL part
into a Python exception.  When the errno is `EINTR` it first runs
`py.check_signals()`, which raises the exception installed by a pending
signal handler, if any; the `?` operator propagates that exception, so a
handler-raised cancellation takes precedence over the generic error.
Otherwise (or when no signal is pending) it raises `ExtraSafeError` with the
message naming the failing step, chained from an `OSError` carrying the
errno when one is present.  The pending-signal state of the interpreter is
passed in as `pending`. -/

/-- A Python exception as observable from `raise_errno`: either the exception
raised by a pending signal handler via `check_signals`, or the
`ExtraSafeError` built from the failing step and the optional errno cause. -/
inductive PyExc
  | signalExc (sig : Nat)
  | extraSafe (msg : String) (cause : Option Nat)
deriving DecidableEq

/-- Embedding of `raise_errno` from src/additional.rs. -/
def raise_errno (pending : Option Nat) (errno : Option Nat) (msg : String) : PyExc :=
  if errno = some EINTR then
    match pending with
    | some s => .signalExc s
    | none => .extraSafe msg errno
  else
    .extraSafe msg errno

/-! ## Rule-set data model (src/rule_sets.rs)

Per-category data structures generated by the `impl_subclass!` macro: each is
a bitflags `u16` (modelled as a `Nat` holding the bit pattern) together with
the extra payload, which is trivial except for `DataSystemIo`, whose
`ReadWriteFilenos` payload holds the read-allowed and write-allowed
file-descriptor lists (Rust `Vec<RawFd>`, `RawFd = i32`, modelled as
`List Int`). -/

/-- Payload of `DataSystemIo`: the two descriptor allow-lists. -/
structure ReadWriteFilenos where
  rd : List Int
  wr : List Int
deriving DecidableEq

/-- Data of the `BasicCapabilities` subclass (no flags defined, unit extra). -/
structure DataBasicCapabilities where
  flags : Nat
deriving DecidableEq

/-- Data of the `ForkAndExec` subclass (no flags defined, unit extra). -/
structure DataForkAndExec where
  flags : Nat
deriving DecidableEq

/-- Data of the `Threads` subclass.  Flag bits: `ALLOW_CREATE = 1`,
`ALLOW_SLEEP = 2`. -/
structure DataThreads where
  flags : Nat
deriving DecidableEq

/-- Data of the `Networking` subclass.  Flag bits 0..8 in declaration order:
running tcp clients, running tcp servers, running udp sockets, running unix
clients, running unix servers, start tcp clients, start tcp servers,
start udp servers, start unix server. -/
structure DataNetworking where
  flags : Nat
deriving DecidableEq

/-- Data of the `SystemIO` subclass.  Flag bits 0..9 in declaration order:
close, ioctl, metadata, open, open readonly, read, stderr, stdin, stdout,
write; plus the descriptor payload. -/
structure DataSystemIo where
  flags : Nat
  extra : ReadWriteFilenos
deriving DecidableEq

/-- Data of the `Time` subclass.  Flag bit: `ALLOW_GETTIME = 1`. -/
structure DataTime where
  flags : Nat
deriving DecidableEq

/-- The tagged union `DataRuleSet`, one variant per category, in the
declaration order of the source (relevant to the derived ordering). -/
inductive DataRuleSet
  | PyBasicCapabilities (data : DataBasicCapabilities)
  | PyForkAndExec (data : DataForkAndExec)
  | PyThreads (data : DataThreads)
  | PyNetworking (data : DataNetworking)
  | PySystemIo (data : DataSystemIo)
  | PyTime (data : DataTime)
deriving DecidableEq

/-- Builder `Threads.allow_create`: sets flag bit `ALLOW_CREATE`. -/
def threads_allow_create (d : DataThreads) : DataThreads := ⟨d.flags ||| 1⟩

/-- Builder `Threads.allow_sleep`: sets flag bit `ALLOW_SLEEP`. -/
def threads_allow_sleep (d : DataThreads) : DataThreads := ⟨d.flags ||| 2⟩

/-! ### `insert_sorted_fileno` (src/rule_sets.rs, lines 410-418) -/

/-- Model of Rust `Vec::binary_search` (std library, external to this
repository), by its documented contract: `Ok(i)` with an index of a matching
element when the value is present, `Err(p)` with the insertion position that
keeps a sorted vector sorted — for a sorted vector that position is the
number of elements below the probe. -/
def binary_search (vec : List Int) (x : Int) : Sum Nat Nat :=
  if x ∈ vec then Sum.inl ((vec.takeWhile (fun y => y ≠ x)).length)
  else Sum.inr ((vec.filter (fun y => decide (y < x))).length)

/-- Model of Rust `Vec::insert` (std library): insert `x` at position `pos`,
shifting the suffix. -/
def vec_insert (vec : List Int) (pos : Nat) (x : Int) : List Int :=
  vec.take pos ++ x :: vec.drop pos

/-- Embedding of `insert_sorted_fileno`.  Returns the `PyResult` and the
final state of the (in Rust, in-place mutated) vector: an `Err` is returned
before the vector is touched, a found descriptor is left as is, and a missing
one is inserted at the position reported by `binary_search`. -/
def insert_sorted_fileno (vec : List Int) (fileno : Int) :
    Except String Unit × List Int :=
  if fileno < 0 then (.error "illegal fileno", vec)
  else
    match binary_search vec fileno with
    | .inl _ => (.ok (), vec)
    | .inr pos => (.ok (), vec_insert vec pos fileno)

/-- Embedding of `PySystemIo::allow_file_read`: runs `insert_sorted_fileno`
on the read list and returns the `PyResult` together with the object state
after the call. -/
def allow_file_read (d : DataSystemIo) (fileno : Int) :
    Except String Unit × DataSystemIo :=
  ((insert_sorted_fileno d.extra.rd fileno).1,
    ⟨d.flags, ⟨(insert_sorted_fileno d.extra.rd fileno).2, d.extra.wr⟩⟩)

/-- Embedding of `PySystemIo::allow_file_write`: runs `insert_sorted_fileno`
on the write list. -/
def allow_file_write (d : DataSystemIo) (fileno : Int) :
    Except String Unit × DataSystemIo :=
  ((insert_sorted_fileno d.extra.wr fileno).1,
    ⟨d.flags, ⟨d.extra.rd, (insert_sorted_fileno d.extra.wr fileno).2⟩⟩)

/-- The reserved "no descriptor" sentinel value (`-1` in the POSIX
convention used by `RawFd`). -/
def NO_FD_SENTINEL : Int := -1

/-- One builder call on a `SystemIO` rule set: a flag-setting `allow_*`
method (bit index per the declaration order) or a descriptor insertion. -/
inductive SIOOp
  | allow_close
  | allow_ioctl
  | allow_metadata
  | allow_open
  | allow_open_readonly
  | allow_read
  | allow_stderr
  | allow_stdin
  | allow_stdout
  | allow_write
  | file_read (fd : Int)
  | file_write (fd : Int)
deriving DecidableEq

/-- Effect of one builder call on the `DataSystemIo` state.  A failing
descriptor insertion raises in Python and leaves the object state unchanged
(the state component returned by `allow_file_read`/`allow_file_write` is the
original one in that case). -/
def sio_step (d : DataSystemIo) : SIOOp → DataSystemIo
  | .allow_close => ⟨d.flags ||| 1, d.extra⟩
  | .allow_ioctl => ⟨d.flags ||| 2, d.extra⟩
  | .allow_metadata => ⟨d.flags ||| 4, d.extra⟩
  | .allow_open => ⟨d.flags ||| 8, d.extra⟩
  | .allow_open_readonly => ⟨d.flags ||| 16, d.extra⟩
  | .allow_read => ⟨d.flags ||| 32, d.extra⟩
  | .allow_stderr => ⟨d.flags ||| 64, d.extra⟩
  | .allow_stdin => ⟨d.flags ||| 128, d.extra⟩
  | .allow_stdout => ⟨d.flags ||| 256, d.extra⟩
  | .allow_write => ⟨d.flags ||| 512, d.extra⟩
  | .file_read fd => (allow_file_read d fd).2
  | .file_write fd => (allow_file_write d fd).2

/-- The state `SystemIO.new()` starts from: empty flags, empty lists. -/
def sysio_default : DataSystemIo := ⟨0, ⟨[], []⟩⟩

/-- Run a sequence of builder calls on a `SystemIO` rule set. -/
def runSio (d : DataSystemIo) (ops : List SIOOp) : DataSystemIo :=
  ops.foldl sio_step d

/-! ## Policy construction (`enable_to`, src/rule_sets.rs lines 159-179)

The `impl_subclass!` macro generates, per category, an `enable_to` that
starts from the category's `nothing()` policy and, for each flag bit in
declaration order, applies the corresponding `extrasafe` builder expression;
for `SystemIO` the payload descriptors are then whitelisted one by one.
The `extrasafe` builders are external to this repository, so the constructed
policy is recorded as the ordered trace of builder calls; `.yes_really()`
(the confirmation step of a dangerous permission) appears as its own call
immediately after the guarded one it confirms. -/

/-- One call into an external `extrasafe` policy builder. -/
inductive PCall
  | allow_create
  | allow_sleep
  | yes_really
  | allow_running_tcp_clients
  | allow_running_tcp_servers
  | allow_running_udp_sockets
  | allow_running_unix_clients
  | allow_running_unix_servers
  | allow_start_tcp_clients
  | allow_start_tcp_servers
  | allow_start_udp_servers
  | allow_start_unix_server
  | allow_close
  | allow_ioctl
  | allow_metadata
  | allow_open
  | allow_open_readonly
  | allow_read
  | allow_stderr
  | allow_stdin
  | allow_stdout
  | allow_write
  | allow_gettime
  | allow_file_read (fd : Int)
  | allow_file_write (fd : Int)
deriving DecidableEq

/-- One conditional segment of the macro-generated fold: the builder calls of
an `$enable` expression if its flag is set, nothing otherwise. -/
def seg (b : Bool) (ops : List PCall) : List PCall :=
  if b then ops else []

/-- Policy trace built by `DataBasicCapabilities::enable_to` (no flags). -/
def buildBasicCapabilities (_flags : Nat) : List PCall := []

/-- Policy trace built by `DataForkAndExec::enable_to` (no flags). -/
def buildForkAndExec (_flags : Nat) : List PCall := []

/-- Policy trace built by `DataThreads::enable_to`.  `ALLOW_SLEEP` enables
`policy.allow_sleep().yes_really()`. -/
def buildThreads (flags : Nat) : List PCall :=
  seg (flags.testBit 0) [.allow_create] ++
  seg (flags.testBit 1) [.allow_sleep, .yes_really]

/-- Policy trace built by `DataNetworking::enable_to`.  The three
`ALLOW_START_*_SERVER(S)` flags enable the `.yes_really()`-confirmed
builders. -/
def buildNetworking (flags : Nat) : List PCall :=
  seg (flags.testBit 0) [.allow_running_tcp_clients] ++
  seg (flags.testBit 1) [.allow_running_tcp_servers] ++
  seg (flags.testBit 2) [.allow_running_udp_sockets] ++
  seg (flags.testBit 3) [.allow_running_unix_clients] ++
  seg (flags.testBit 4) [.allow_running_unix_servers] ++
  seg (flags.testBit 5) [.allow_start_tcp_clients] ++
  seg (flags.testBit 6) [.allow_start_tcp_servers, .yes_really] ++
  seg (flags.testBit 7) [.allow_start_udp_servers, .yes_really] ++
  seg (flags.testBit 8) [.allow_start_unix_server, .yes_really]

/-- Policy trace built by `DataSystemIo::enable_to`: the flag segments in
declaration order (`ALLOW_OPEN` is `.yes_really()`-confirmed), then
`ReadWriteFilenos::enable_extra` whitelists each read descriptor and then
each write descriptor. -/
def buildSystemIo (d : DataSystemIo) : List PCall :=
  (seg (d.flags.testBit 0) [.allow_close] ++
   seg (d.flags.testBit 1) [.allow_ioctl] ++
   seg (d.flags.testBit 2) [.allow_metadata] ++
   seg (d.flags.testBit 3) [.allow_open, .yes_really] ++
   seg (d.flags.testBit 4) [.allow_open_readonly] ++
   seg (d.flags.testBit 5) [.allow_read] ++
   seg (d.flags.testBit 6) [.allow_stderr] ++
   seg (d.flags.testBit 7) [.allow_stdin] ++
   seg (d.flags.testBit 8) [.allow_stdout] ++
   seg (d.flags.testBit 9) [.allow_write]) ++
  d.extra.rd.map PCall.allow_file_read ++
  d.extra.wr.map PCall.allow_file_write

/-- Policy trace built by `DataTime::enable_to`. -/
def buildTime (flags : Nat) : List PCall :=
  seg (flags.testBit 0) [.allow_gettime]

/-- The policy each `DataRuleSet` variant hands to `ctx.enable`, as the
ordered trace of `extrasafe` builder calls of its `enable_to`. -/
def build_policy : DataRuleSet → List PCall
  | .PyBasicCapabilities d => buildBasicCapabilities d.flags
  | .PyForkAndExec d => buildForkAndExec d.flags
  | .PyThreads d => buildThreads d.flags
  | .PyNetworking d => buildNetworking d.flags
  | .PySystemIo d => buildSystemIo d
  | .PyTime d => buildTime d.flags

/-! ## Comparison and hashing (src/rule_sets.rs, lines 110-128)

`PyRuleSet::__richcmp__` delegates to the derived `PartialEq`/`Ord` of
`DataRuleSet` (variant order first, then the fields in declaration order,
with `Vec` compared lexicographically); `__hash__` feeds the structural data
to std's `DefaultHasher`.  The hasher itself is std-external; it is modelled
as a deterministic function of the structural data, which is the only
property the code relies on. -/

/-- The six comparison operations of Python's rich comparison protocol. -/
inductive CompareOp
  | Lt
  | Le
  | Eq
  | Ne
  | Gt
  | Ge
deriving DecidableEq

/-- Lexicographic ordering of descriptor vectors (Rust's derived
`Ord for Vec<RawFd>`). -/
def cmp_list_int : List Int → List Int → Ordering
  | [], [] => .eq
  | [], _ :: _ => .lt
  | _ :: _, [] => .gt
  | x :: xs, y :: ys =>
    match compare x y with
    | .eq => cmp_list_int xs ys
    | o => o

/-- Variant index of a `DataRuleSet` (Rust's derived `Ord` compares the
discriminant first, in declaration order). -/
def variant_idx : DataRuleSet → Nat
  | .PyBasicCapabilities _ => 0
  | .PyForkAndExec _ => 1
  | .PyThreads _ => 2
  | .PyNetworking _ => 3
  | .PySystemIo _ => 4
  | .PyTime _ => 5

/-- The derived structural ordering of `DataRuleSet`: variant order, then
flags, then (for `SystemIO`) the read list, then the write list. -/
def data_cmp (a b : DataRuleSet) : Ordering :=
  match a, b with
  | .PyBasicCapabilities x, .PyBasicCapabilities y => compare x.flags y.flags
  | .PyForkAndExec x, .PyForkAndExec y => compare x.flags y.flags
  | .PyThreads x, .PyThreads y => compare x.flags y.flags
  | .PyNetworking x, .PyNetworking y => compare x.flags y.flags
  | .PySystemIo x, .PySystemIo y =>
    (compare x.flags y.flags).then
      ((cmp_list_int x.extra.rd y.extra.rd).then
        (cmp_list_int x.extra.wr y.extra.wr))
  | .PyTime x, .PyTime y => compare x.flags y.flags
  | x, y => compare (variant_idx x) (variant_idx y)

/-- Embedding of `PyRuleSet::__richcmp__`: structural comparison of the two
`DataRuleSet` payloads under the requested operation. -/
def richcmp (a b : DataRuleSet) : CompareOp → Bool
  | .Lt => data_cmp a b == .lt
  | .Le => data_cmp a b != .gt
  | .Eq => decide (a = b)
  | .Ne => decide (a ≠ b)
  | .Gt => data_cmp a b == .gt
  | .Ge => data_cmp a b != .lt

/-- Injection of a descriptor into a hash accumulator. -/
def hash_int (x : Int) : Nat :=
  2 * x.natAbs + (if x < 0 then 1 else 0)

/-- Hash of a descriptor list. -/
def hash_list_int (l : List Int) : Nat :=
  l.foldl (fun h x => h * 1000003 + hash_int x) 5381

/-- Embedding of `PyRuleSet::__hash__`.  Std's `DefaultHasher` is external
to this repository; it is modelled as a deterministic function of the
structural data fed to it (variant tag, flags, payload), the only property
the code relies on. -/
def py_hash : DataRuleSet → Nat
  | .PyBasicCapabilities d => 6 * d.flags + 0
  | .PyForkAndExec d => 6 * d.flags + 1
  | .PyThreads d => 6 * d.flags + 2
  | .PyNetworking d => 6 * d.flags + 3
  | .PySystemIo d =>
    6 * (d.flags * 1000003 * 1000003
        + hash_list_int d.extra.rd * 1000003
        + hash_list_int d.extra.wr) + 4
  | .PyTime d => 6 * d.flags + 5

/-! ## `PySafetyContext` (src/safety_ctx.rs)

The context's state is a `Py<PyList>` of `Py<PyRuleSet>` pointers.  A
`Py<T>` is a reference-counted pointer into the Python object store, so the
store is modelled as a heap `List DataRuleSet` and a pointer as an index
into it; `enable` appends the index (`PyList::append` stores the pointer,
it does not copy the object).  `to_context` folds the stored sequence
left-to-right through `enable_to` starting from `SafetyContext::new()`;
each `enable_to` builds its policy from the rule set's current data and
hands it to the external `extrasafe` `SafetyContext::enable`, which is
modelled by a predicate `fail` on the accumulated context and the new
policy (it returns an error on rule conflicts).  A failure is wrapped into
an `ExtraSafeError` whose message names the offending rule set. -/

/-- Failure of `PySafetyContext::to_context`: the downcast of a stored list
element failed, or `extrasafe` rejected a policy — the error names the
offending rule set (the source formats it into the message). -/
inductive CtxErr
  | downcast
  | policy (offender : DataRuleSet)
deriving DecidableEq

/-- Embedding of `PySafetyContext::enable`: append the pointer to the stored
list and return the context itself. -/
def ctx_enable (ctx : List Nat) (r : Nat) : List Nat := ctx ++ [r]

/-- Embedding of the loop of `PySafetyContext::to_context`: `acc` is the
accumulated `extrasafe::SafetyContext`, represented by the list of policies
enabled into it so far. -/
def to_context_go (fail : List (List PCall) → List PCall → Bool)
    (heap : List DataRuleSet) :
    List Nat → List (List PCall) → Except CtxErr (List (List PCall))
  | [], acc => .ok acc
  | i :: rest, acc =>
    match heap[i]? with
    | none => .error .downcast
    | some r =>
      if fail acc (build_policy r) then .error (.policy r)
      else to_context_go fail heap rest (acc ++ [build_policy r])

/-- Embedding of `PySafetyContext::to_context`: the fold starts from
`SafetyContext::new()`, the empty accumulated context. -/
def to_context (fail : List (List PCall) → List PCall → Bool)
    (heap : List DataRuleSet) (ctx : List Nat) : Except CtxErr (List (List PCall)) :=
  to_context_go fail heap ctx []

/-- Result of an apply method: success, a `to_context` failure, or a failure
of the kernel-level installation itself. -/
inductive ApplyRes
  | ok
  | ctxErr (e : CtxErr)
  | installErr
deriving DecidableEq

/-- Embedding of `PySafetyContext::apply_to_current_thread`: build the
context, then perform the kernel-level installation (modelled by the
external predicate `install`).  The boolean records whether the
installation step was reached at all. -/
def apply_to_current_thread (fail : List (List PCall) → List PCall → Bool)
    (install : List (List PCall) → Bool)
    (heap : List DataRuleSet) (ctx : List Nat) : ApplyRes × Bool :=
  match to_context fail heap ctx with
  | .error e => (.ctxErr e, false)
  | .ok c => if install c then (.ok, true) else (.installErr, true)

/-- Embedding of `PySafetyContext::apply_to_all_threads`: identical shape,
with its own kernel-level installation. -/
def apply_to_all_threads (fail : List (List PCall) → List PCall → Bool)
    (install : List (List PCall) → Bool)
    (heap : List DataRuleSet) (ctx : List Nat) : ApplyRes × Bool :=
  match to_context fail heap ctx with
  | .error e => (.ctxErr e, false)
  | .ok c => if install c then (.ok, true) else (.installErr, true)

/-! ## Helper lemmas about sorted insertion -/

/-- Reference insertion into a strictly ascending list: skip smaller
elements, stop before a larger one, drop a duplicate. -/
def sinsert (x : Int) : List Int → List Int
  | [] => [x]
  | y :: ys =>
    if y < x then y :: sinsert x ys
    else if x < y then x :: y :: ys
    else y :: ys

theorem mem_sinsert (a x : Int) (l : List Int) :
    a ∈ sinsert x l ↔ a = x ∨ a ∈ l := by
  induction l with
  | nil => simp [sinsert]
  | cons y ys ih =>
    by_cases h1 : y < x
    · simp [sinsert, h1, ih]
      tauto
    · by_cases h2 : x < y
      · simp [sinsert, h1, h2]
      · have : y = x := by omega
        subst this
        simp [sinsert]

theorem self_mem_sinsert (x : Int) (l : List Int) : x ∈ sinsert x l :=
  (mem_sinsert x x l).mpr (Or.inl rfl)

theorem pairwise_sinsert (x : Int) (l : List Int)
    (hp : List.Pairwise (· < ·) l) :
    List.Pairwise (· < ·) (sinsert x l) := by
  induction l with
  | nil => simp [sinsert]
  | cons y ys ih =>
    rw [List.pairwise_cons] at hp
    obtain ⟨hy, hp'⟩ := hp
    by_cases h1 : y < x
    · rw [sinsert, if_pos h1, List.pairwise_cons]
      refine ⟨?_, ih hp'⟩
      intro z hz
      rcases (mem_sinsert z x ys).mp hz with h | h
      · omega
      · exact hy z h
    · by_cases h2 : x < y
      · rw [sinsert, if_neg h1, if_pos h2, List.pairwise_cons]
        refine ⟨?_, List.pairwise_cons.mpr ⟨hy, hp'⟩⟩
        intro z hz
        rcases List.mem_cons.mp hz with h | h
        · omega
        · have := hy z h
          omega
      · rw [sinsert, if_neg h1, if_neg h2]
        exact List.pairwise_cons.mpr ⟨hy, hp'⟩

theorem sinsert_eq_of_mem (x : Int) (l : List Int)
    (hp : List.Pairwise (· < ·) l) (hm : x ∈ l) : sinsert x l = l := by
  induction l with
  | nil => simp at hm
  | cons y ys ih =>
    rw [List.pairwise_cons] at hp
    obtain ⟨hy, hp'⟩ := hp
    rcases List.mem_cons.mp hm with h | h
    · subst h
      simp [sinsert]
    · have h1 : y < x := hy x h
      rw [sinsert, if_pos h1, ih hp' h]

theorem vec_insert_zero (l : List Int) (x : Int) : vec_insert l 0 x = x :: l := by
  simp [vec_insert]

theorem vec_insert_succ (y : Int) (ys : List Int) (n : Nat) (x : Int) :
    vec_insert (y :: ys) (n + 1) x = y :: vec_insert ys n x := by
  simp [vec_insert]

/-- On a strictly ascending list that does not contain `x`, inserting `x` at
the position reported by the `binary_search` contract is the reference
insertion. -/
theorem vec_insert_filter_eq_sinsert (x : Int) (l : List Int)
    (hp : List.Pairwise (· < ·) l) (hm : x ∉ l) :
    vec_insert l ((l.filter (fun y => decide (y < x))).length) x = sinsert x l := by
  induction l with
  | nil => simp [vec_insert, sinsert]
  | cons y ys ih =>
    rw [List.pairwise_cons] at hp
    obtain ⟨hy, hp'⟩ := hp
    have hxy : x ≠ y := fun h => hm (h ▸ List.mem_cons_self y ys)
    have hxys : x ∉ ys := fun h => hm (List.mem_cons_of_mem y h)
    by_cases h1 : y < x
    · rw [List.filter_cons_of_pos (by simpa using h1), List.length_cons,
        vec_insert_succ, ih hp' hxys, sinsert, if_pos h1]
    · have h2 : x < y := by omega
      have hnil : ys.filter (fun y => decide (y < x)) = [] := by
        rw [List.filter_eq_nil_iff]
        intro z hz
        have := hy z hz
        simp
        omega
      rw [List.filter_cons_of_neg (by simpa using h1), hnil, List.length_nil,
        vec_insert_zero, sinsert, if_neg h1, if_pos h2]

/-- Bridging lemma: on a strictly ascending list, `insert_sorted_fileno`
computes the reference insertion (or leaves the list alone on a negative
descriptor). -/
theorem insert_sorted_fileno_snd (l : List Int) (x : Int)
    (hp : List.Pairwise (· < ·) l) :
    (insert_sorted_fileno l x).2 = if x < 0 then l else sinsert x l := by
  by_cases hneg : x < 0
  · simp [insert_sorted_fileno, hneg]
  · rw [if_neg hneg]
    by_cases hm : x ∈ l
    · rw [insert_sorted_fileno, if_neg hneg]
      simp only [binary_search, if_pos hm]
      exact (sinsert_eq_of_mem x l hp hm).symm
    · rw [insert_sorted_fileno, if_neg hneg]
      simp only [binary_search, if_neg hm]
      exact vec_insert_filter_eq_sinsert x l hp hm

theorem insert_sorted_fileno_pairwise (l : List Int) (x : Int)
    (hp : List.Pairwise (· < ·) l) :
    List.Pairwise (· < ·) (insert_sorted_fileno l x).2 := by
  rw [insert_sorted_fileno_snd l x hp]
  by_cases hneg : x < 0
  · simpa [hneg] using hp
  · rw [if_neg hneg]
    exact pairwise_sinsert x l hp

theorem insert_sorted_fileno_mem (l : List Int) (x : Int)
    (hneg : 0 ≤ x) (hp : List.Pairwise (· < ·) l) :
    x ∈ (insert_sorted_fileno l x).2 := by
  rw [insert_sorted_fileno_snd l x hp, if_neg (by omega)]
  exact self_mem_sinsert x l

theorem insert_sorted_fileno_of_mem (l : List Int) (x : Int)
    (hneg : 0 ≤ x) (hm : x ∈ l) :
    (insert_sorted_fileno l x).2 = l := by
  rw [insert_sorted_fileno, if_neg (by omega)]
  simp only [binary_search, if_pos hm]

/-! ## Invariant of the SystemIO builder -/

/-- Invariant of a `SystemIO` rule set: both descriptor lists strictly
ascending. -/
def sio_inv (d : DataSystemIo) : Prop :=
  List.Pairwise (· < ·) d.extra.rd ∧ List.Pairwise (· < ·) d.extra.wr

theorem sio_step_inv (d : DataSystemIo) (op : SIOOp) (h : sio_inv d) :
    sio_inv (sio_step d op) := by
  obtain ⟨hrd, hwr⟩ := h
  cases op with
  | file_read fd =>
    exact ⟨insert_sorted_fileno_pairwise _ _ hrd, hwr⟩
  | file_write fd =>
    exact ⟨hrd, insert_sorted_fileno_pairwise _ _ hwr⟩
  | _ => exact ⟨hrd, hwr⟩

theorem runSio_inv (ops : List SIOOp) :
    ∀ d, sio_inv d → sio_inv (runSio d ops) := by
  induction ops with
  | nil => intro d h; exact h
  | cons op rest ih =>
    intro d h
    exact ih (sio_step d op) (sio_step_inv d op h)

/-! ## Claim theorems -/

/-- C6: for every SystemIO rule set and every descriptor that is negative or
equals the reserved "no descriptor" sentinel `-1`, `allow_file_read` and
`allow_file_write` fail with the invalid-argument error ("illegal fileno")
and leave the rule set's flags and both descriptor lists completely
unchanged; in particular `allow_file_read(-1)` fails this way. -/
theorem allow_file_invalid_fd (d : DataSystemIo) (fd : Int)
    (h : fd < 0 ∨ fd = NO_FD_SENTINEL) :
    allow_file_read d fd = (.error "illegal fileno", d)
    ∧ allow_file_write d fd = (.error "illegal fileno", d) := by
  have hneg : fd < 0 := by
    rcases h with h | h
    · exact h
    · rw [h]; decide
  obtain ⟨fl, rd, wr⟩ := d
  constructor
  · simp [allow_file_read, insert_sorted_fileno, hneg]
  · simp [allow_file_write, insert_sorted_fileno, hneg]

/-- Witness for C6: `allow_file_read(-1)` on the fresh SystemIO rule set. -/
theorem allow_file_invalid_fd_witness :
    allow_file_read sysio_default (-1) = (.error "illegal fileno", sysio_default)
    ∧ allow_file_write sysio_default (-1) = (.error "illegal fileno", sysio_default) :=
  allow_file_invalid_fd sysio_default (-1) (Or.inr rfl)

/-- C7: every sequence of builder calls on a SystemIO rule set keeps both
descriptor lists strictly ascending and duplicate-free, and inserting the
same non-negative descriptor twice leaves it present exactly once. -/
theorem sysio_lists_sorted_unique (ops : List SIOOp) (fd : Int) (hfd : 0 ≤ fd) :
    List.Pairwise (· < ·) (runSio sysio_default ops).extra.rd
    ∧ List.Pairwise (· < ·) (runSio sysio_default ops).extra.wr
    ∧ (runSio sysio_default ops).extra.rd.Nodup
    ∧ (runSio sysio_default ops).extra.wr.Nodup
    ∧ List.count fd
        (runSio sysio_default (ops ++ [.file_read fd, .file_read fd])).extra.rd = 1 := by
  have hinv : sio_inv (runSio sysio_default ops) :=
    runSio_inv ops sysio_default ⟨List.Pairwise.nil, List.Pairwise.nil⟩
  obtain ⟨hrd, hwr⟩ := hinv
  refine ⟨hrd, hwr, hrd.nodup, hwr.nodup, ?_⟩
  have happ : runSio sysio_default (ops ++ [.file_read fd, .file_read fd])
      = sio_step (sio_step (runSio sysio_default ops) (.file_read fd)) (.file_read fd) := by
    simp [runSio, List.foldl_append]
  rw [happ]
  have hrd1 : (sio_step (runSio sysio_default ops) (.file_read fd)).extra.rd
      = (insert_sorted_fileno (runSio sysio_default ops).extra.rd fd).2 := rfl
  have hmem : fd ∈ (sio_step (runSio sysio_default ops) (.file_read fd)).extra.rd := by
    rw [hrd1]
    exact insert_sorted_fileno_mem _ _ hfd hrd
  have hp1 : List.Pairwise (· < ·)
      (sio_step (runSio sysio_default ops) (.file_read fd)).extra.rd := by
    rw [hrd1]
    exact insert_sorted_fileno_pairwise _ _ hrd
  have hrd2 : (sio_step (sio_step (runSio sysio_default ops) (.file_read fd))
        (.file_read fd)).extra.rd
      = (sio_step (runSio sysio_default ops) (.file_read fd)).extra.rd :=
    insert_sorted_fileno_of_mem _ _ hfd hmem
  rw [hrd2]
  exact List.count_eq_one_of_mem hp1.nodup hmem

/-- Witness for C7: a concrete builder sequence with a duplicate insertion. -/
theorem sysio_lists_sorted_unique_witness :
    List.Pairwise (· < ·)
      (runSio sysio_default [.allow_read, .file_read 5, .file_read 3]).extra.rd
    ∧ List.Pairwise (· < ·)
      (runSio sysio_default [.allow_read, .file_read 5, .file_read 3]).extra.wr
    ∧ (runSio sysio_default [.allow_read, .file_read 5, .file_read 3]).extra.rd.Nodup
    ∧ (runSio sysio_default [.allow_read, .file_read 5, .file_read 3]).extra.wr.Nodup
    ∧ List.count 3
        (runSio sysio_default ([.allow_read, .file_read 5, .file_read 3]
          ++ [.file_read 3, .file_read 3])).extra.rd = 1 :=
  sysio_lists_sorted_unique [.allow_read, .file_read 5, .file_read 3] 3 (by decide)

/-- C4: `write_all` delivers the full buffer exactly once — on success the
concatenation of the delivered chunks is exactly the contents buffer (no
duplication or loss), each short write resuming from the remaining offset;
it fails with `WriteIncomplete` exactly when two consecutive write calls
return zero bytes: two consecutive zero-byte results abort with the
`(None, "write all data to")` error, a zero-byte result followed by a
productive one resets the counter and resumes, and conversely the
`WriteIncomplete` error can only arise from two consecutive zero-byte
results in the syscall script. -/
theorem write_all_delivers_exactly_once :
    (∀ script contents chunks,
        write_all script contents = (.ok, chunks) → joinl chunks = contents)
    ∧ (∀ s c cs acc,
        write_all_go (.ok 0 :: .ok 0 :: s) false (c :: cs) acc
          = (.fail none "write all data to", acc))
    ∧ (∀ s a c cs acc, 0 < a →
        write_all_go (.ok 0 :: .ok a :: s) false (c :: cs) acc
          = write_all_go s false ((c :: cs).drop a) (acc ++ [(c :: cs).take a]))
    ∧ (∀ script contents chunks m,
        write_all script contents = (.fail none m, chunks) →
        hasConsecZeros script = true) := by
  refine ⟨?_, ?_, ?_, ?_⟩
  · intro script contents chunks h
    have := write_all_go_ok_join script false contents [] chunks h
    simpa [joinl] using this
  · intro s c cs acc
    rw [write_all_go]
    simp only [Nat.lt_irrefl, if_false, Bool.not_false, if_pos]
    rw [write_all_go]
    simp
  · intro s a c cs acc ha
    rw [write_all_go]
    simp only [Nat.lt_irrefl, if_false, Bool.not_false, if_pos]
    rw [write_all_go, if_pos ha]
  · intro script contents chunks m h
    rcases write_all_go_incomplete_consec script false contents [] chunks m h with h1 | h1
    · exact h1
    · exact absurd h1.1 (by simp)

/-- Witness for C4: a short write resumed to completion, a two-zero abort,
a zero-then-productive reset, and the converse characterisation, all at
concrete inputs. -/
theorem write_all_delivers_exactly_once_witness :
    joinl [[9], [8, 7]] = [9, 8, 7]
    ∧ write_all_go [.ok 0, .ok 0] false [1, 2] []
        = (.fail none "write all data to", [])
    ∧ write_all_go [.ok 0, .ok 1, .ok 9] false [1, 2] []
        = write_all_go [.ok 9] false ([1, 2].drop 1) ([] ++ [[1, 2].take 1])
    ∧ hasConsecZeros [.ok 1, .ok 0, .ok 0] = true := by
  obtain ⟨h1, h2, h3, h4⟩ := write_all_delivers_exactly_once
  exact ⟨h1 [.ok 1, .ok 2] [9, 8, 7] [[9], [8, 7]] (by decide),
    h2 [] 1 [2] [],
    h3 [.ok 9] 1 1 [2] [] (by decide),
    h4 [.ok 1, .ok 0, .ok 0] [5, 6] [[5]] "write all data to" (by decide)⟩

/-- C8: rule-set comparison and hashing are structural — two SystemIO rule
sets built through different builder-call sequences that end in identical
final flags and descriptor payload compare equal under every equality-like
rich comparison and produce the same hash value (and are the same structural
value). -/
theorem ruleset_structural_eq_hash (ops1 ops2 : List SIOOp)
    (hflags : (runSio sysio_default ops1).flags = (runSio sysio_default ops2).flags)
    (hextra : (runSio sysio_default ops1).extra = (runSio sysio_default ops2).extra) :
    richcmp (.PySystemIo (runSio sysio_default ops1))
        (.PySystemIo (runSio sysio_default ops2)) .Eq = true
    ∧ richcmp (.PySystemIo (runSio sysio_default ops1))
        (.PySystemIo (runSio sysio_default ops2)) .Ne = false
    ∧ py_hash (.PySystemIo (runSio sysio_default ops1))
        = py_hash (.PySystemIo (runSio sysio_default ops2)) := by
  have heq : runSio sysio_default ops1 = runSio sysio_default ops2 := by
    generalize hA : runSio sysio_default ops1 = d1 at hflags hextra
    generalize hB : runSio sysio_default ops2 = d2 at hflags hextra
    obtain ⟨f1, e1⟩ := d1
    obtain ⟨f2, e2⟩ := d2
    simp only [DataSystemIo.mk.injEq]
    exact ⟨hflags, hextra⟩
  rw [heq]
  refine ⟨by simp [richcmp], by simp [richcmp], rfl⟩

/-- Witness for C8: two different call orders with a repeated call that end
in the same final state. -/
theorem ruleset_structural_eq_hash_witness :
    richcmp (.PySystemIo (runSio sysio_default [.allow_read, .file_read 3, .file_read 7]))
        (.PySystemIo (runSio sysio_default
          [.file_read 7, .allow_read, .file_read 3, .file_read 7])) .Eq = true
    ∧ richcmp (.PySystemIo (runSio sysio_default [.allow_read, .file_read 3, .file_read 7]))
        (.PySystemIo (runSio sysio_default
          [.file_read 7, .allow_read, .file_read 3, .file_read 7])) .Ne = false
    ∧ py_hash (.PySystemIo (runSio sysio_default [.allow_read, .file_read 3, .file_read 7]))
        = py_hash (.PySystemIo (runSio sysio_default
          [.file_read 7, .allow_read, .file_read 3, .file_read 7])) :=
  ruleset_structural_eq_hash
    [.allow_read, .file_read 3, .file_read 7]
    [.file_read 7, .allow_read, .file_read 3, .file_read 7]
    (by decide) (by decide)

/-- C9: whenever the flag of an inherently risky permission is set (letting
a thread sleep; starting TCP, UDP, or Unix servers), the policy trace built
by `enable_to` applies the confirmed dangerous variant — the guarded builder
immediately followed by its `yes_really` confirmation — so composition never
lacks the confirmation. -/
theorem dangerous_flags_use_confirmed_variant (ft fn : Nat) :
    (ft.testBit 1 = true → ∃ l1 l2,
      buildThreads ft = l1 ++ [.allow_sleep, .yes_really] ++ l2)
    ∧ (fn.testBit 6 = true → ∃ l1 l2,
      buildNetworking fn = l1 ++ [.allow_start_tcp_servers, .yes_really] ++ l2)
    ∧ (fn.testBit 7 = true → ∃ l1 l2,
      buildNetworking fn = l1 ++ [.allow_start_udp_servers, .yes_really] ++ l2)
    ∧ (fn.testBit 8 = true → ∃ l1 l2,
      buildNetworking fn = l1 ++ [.allow_start_unix_server, .yes_really] ++ l2) := by
  refine ⟨?_, ?_, ?_, ?_⟩
  · intro h
    refine ⟨seg (ft.testBit 0) [.allow_create], [], ?_⟩
    simp [buildThreads, seg, h]
  · intro h
    refine ⟨seg (fn.testBit 0) [.allow_running_tcp_clients] ++
      seg (fn.testBit 1) [.allow_running_tcp_servers] ++
      seg (fn.testBit 2) [.allow_running_udp_sockets] ++
      seg (fn.testBit 3) [.allow_running_unix_clients] ++
      seg (fn.testBit 4) [.allow_running_unix_servers] ++
      seg (fn.testBit 5) [.allow_start_tcp_clients],
      seg (fn.testBit 7) [.allow_start_udp_servers, .yes_really] ++
      seg (fn.testBit 8) [.allow_start_unix_server, .yes_really], ?_⟩
    simp [buildNetworking, seg, h]
  · intro h
    refine ⟨seg (fn.testBit 0) [.allow_running_tcp_clients] ++
      seg (fn.testBit 1) [.allow_running_tcp_servers] ++
      seg (fn.testBit 2) [.allow_running_udp_sockets] ++
      seg (fn.testBit 3) [.allow_running_unix_clients] ++
      seg (fn.testBit 4) [.allow_running_unix_servers] ++
      seg (fn.testBit 5) [.allow_start_tcp_clients] ++
      seg (fn.testBit 6) [.allow_start_tcp_servers, .yes_really],
      seg (fn.testBit 8) [.allow_start_unix_server, .yes_really], ?_⟩
    simp [buildNetworking, seg, h]
  · intro h
    refine ⟨seg (fn.testBit 0) [.allow_running_tcp_clients] ++
      seg (fn.testBit 1) [.allow_running_tcp_servers] ++
      seg (fn.testBit 2) [.allow_running_udp_sockets] ++
      seg (fn.testBit 3) [.allow_running_unix_clients] ++
      seg (fn.testBit 4) [.allow_running_unix_servers] ++
      seg (fn.testBit 5) [.allow_start_tcp_clients] ++
      seg (fn.testBit 6) [.allow_start_tcp_servers, .yes_really] ++
      seg (fn.testBit 7) [.allow_start_udp_servers, .yes_really], [], ?_⟩
    simp [buildNetworking, seg, h]

/-- Witness for C9: `Threads` with allow-sleep set and `Networking` with all
three start-server flags set. -/
theorem dangerous_flags_use_confirmed_variant_witness :
    (∃ l1 l2, buildThreads 2 = l1 ++ [.allow_sleep, .yes_really] ++ l2)
    ∧ (∃ l1 l2, buildNetworking 448 = l1 ++ [.allow_start_tcp_servers, .yes_really] ++ l2)
    ∧ (∃ l1 l2, buildNetworking 448 = l1 ++ [.allow_start_udp_servers, .yes_really] ++ l2)
    ∧ (∃ l1 l2, buildNetworking 448 = l1 ++ [.allow_start_unix_server, .yes_really] ++ l2) := by
  obtain ⟨h1, h2, h3, h4⟩ := dangerous_flags_use_confirmed_variant 2 448
  exact ⟨h1 (by decide), h2 (by decide), h3 (by decide), h4 (by decide)⟩

/-- C10: if the non-blocking exclusive `flock` step fails, the target file
is neither truncated nor written — its prior content is left exactly as it
was and the truncate/write steps are never invoked. -/
theorem flock_failure_leaves_file_untouched (env : SysEnv) (cloexec : Bool)
    (contents file0 : List Nat) (e : Nat)
    (hopen : env.open_rs.head? = some (.ok ()))
    (hflock : env.flock_rs.head? = some (.error e)) :
    (lock_pid_file_nogil env cloexec contents file0).result = .err (some e) "file lock"
    ∧ (lock_pid_file_nogil env cloexec contents file0).file = file0
    ∧ (lock_pid_file_nogil env cloexec contents file0).ftruncateCalled = false
    ∧ (lock_pid_file_nogil env cloexec contents file0).writeCalled = false := by
  have hc : nogil_core env contents file0
      = (.err (some e) "file lock", file0, true, false, false) := by
    unfold nogil_core
    rw [hopen, hflock]
  refine ⟨?_, ?_, ?_, ?_⟩ <;> simp [lock_pid_file_nogil, hc]

/-- Witness for C10: a concrete run whose `flock` fails with `EAGAIN` while
the file holds prior content. -/
theorem flock_failure_leaves_file_untouched_witness :
    (lock_pid_file_nogil ⟨[.ok ()], [.error 11], [.ok ()], [.ok 1]⟩ true [7] [4, 2]).result
      = .err (some 11) "file lock"
    ∧ (lock_pid_file_nogil ⟨[.ok ()], [.error 11], [.ok ()], [.ok 1]⟩ true [7] [4, 2]).file
      = [4, 2]
    ∧ (lock_pid_file_nogil ⟨[.ok ()], [.error 11], [.ok ()], [.ok 1]⟩
        true [7] [4, 2]).ftruncateCalled = false
    ∧ (lock_pid_file_nogil ⟨[.ok ()], [.error 11], [.ok ()], [.ok 1]⟩
        true [7] [4, 2]).writeCalled = false :=
  flock_failure_leaves_file_untouched ⟨[.ok ()], [.error 11], [.ok ()], [.ok 1]⟩
    true [7] [4, 2] 11 rfl rfl

/-- C3 counterexample: at a concrete call, the resolution mode passed to
`openat2` is exactly `ResolveFlags::NO_MAGICLINKS` and the open/resolve
flags do not refuse to traverse a symlink in the final path component
(neither `O_NOFOLLOW` nor `RESOLVE_NO_SYMLINKS` is set), contradicting the
claim that the resolution mode refuses a final symlink. -/
theorem final_symlink_not_refused_cex :
    refuses_final_symlink
      (lock_pid_file_nogil ⟨[.ok ()], [.ok ()], [.ok ()], [.ok 2]⟩ true [10, 11] []).oflags
      (lock_pid_file_nogil ⟨[.ok ()], [.ok ()], [.ok ()], [.ok 2]⟩ true [10, 11] []).resolveFlags
      = false
    ∧ (lock_pid_file_nogil ⟨[.ok ()], [.ok ()], [.ok ()], [.ok 2]⟩
        true [10, 11] []).resolveFlags = RESOLVE_NO_MAGICLINKS := by
  decide

/-- C3 amended: `lock_pid_file` opens the path for reading and writing,
creating it if absent, with resolution flag `RESOLVE_NO_MAGICLINKS`, which
refuses to traverse magic links (kernel pseudo-links such as procfs
descriptor entries) but does not refuse a regular symlink in the final path
component. -/
theorem openat2_flags_no_magiclinks (env : SysEnv) (cloexec : Bool)
    (contents file0 : List Nat) :
    (lock_pid_file_nogil env cloexec contents file0).resolveFlags = RESOLVE_NO_MAGICLINKS
    ∧ (lock_pid_file_nogil env cloexec contents file0).oflags &&& O_RDWR = O_RDWR
    ∧ (lock_pid_file_nogil env cloexec contents file0).oflags &&& O_CREAT = O_CREAT
    ∧ (cloexec = true →
      (lock_pid_file_nogil env cloexec contents file0).oflags &&& O_CLOEXEC = O_CLOEXEC)
    ∧ refuses_magiclinks (lock_pid_file_nogil env cloexec contents file0).resolveFlags = true
    ∧ refuses_final_symlink (lock_pid_file_nogil env cloexec contents file0).oflags
        (lock_pid_file_nogil env cloexec contents file0).resolveFlags = false := by
  have ho : (lock_pid_file_nogil env cloexec contents file0).oflags
      = nogil_oflags cloexec := rfl
  have hr : (lock_pid_file_nogil env cloexec contents file0).resolveFlags
      = nogil_resolve_flags := rfl
  rw [ho, hr]
  cases cloexec <;> decide

/-- C2 counterexample: a concrete trace in which the `openat2` call fails
with `EINTR` and an immediate second attempt would succeed (and the rest of
the sequence would succeed as well).  Under the claim the interruption would
be retried transparently and the call would proceed; instead the code
surfaces the `EINTR` failure as the result without invoking `flock`. -/
theorem eintr_open_not_retried_cex :
    (lock_pid_file_nogil ⟨[.error EINTR, .ok ()], [.ok ()], [.ok ()], [.ok 1]⟩
        true [7] []).result = .err (some EINTR) "open or create"
    ∧ (lock_pid_file_nogil ⟨[.error EINTR, .ok ()], [.ok ()], [.ok ()], [.ok 1]⟩
        true [7] []).flockCalled = false := by
  decide

/-- C2 amended: no syscall of the open/lock/truncate/write sequence is
retried on `EINTR` — the first failure of each step (including an `EINTR`
failure) aborts the sequence, the remaining steps are not attempted, and
the failure is surfaced with the errno and the name of the failing step;
`raise_errno` then runs pending signal handling (`py.check_signals`) before
surfacing an `EINTR` as the generic error, so a handler-raised cancellation
is honored rather than masked. -/
theorem eintr_surfaced_after_check_signals (env : SysEnv) (cloexec : Bool)
    (contents file0 : List Nat) (e s : Nat) (msg : String) :
    (env.open_rs.head? = some (.error e) →
      (lock_pid_file_nogil env cloexec contents file0).result = .err (some e) "open or create"
      ∧ (lock_pid_file_nogil env cloexec contents file0).flockCalled = false)
    ∧ (env.open_rs.head? = some (.ok ()) → env.flock_rs.head? = some (.error e) →
      (lock_pid_file_nogil env cloexec contents file0).result = .err (some e) "file lock"
      ∧ (lock_pid_file_nogil env cloexec contents file0).ftruncateCalled = false)
    ∧ (env.open_rs.head? = some (.ok ()) → env.flock_rs.head? = some (.ok ()) →
      env.ftruncate_rs.head? = some (.error e) →
      (lock_pid_file_nogil env cloexec contents file0).result = .err (some e) "truncate"
      ∧ (lock_pid_file_nogil env cloexec contents file0).writeCalled = false)
    ∧ (env.open_rs.head? = some (.ok ()) → env.flock_rs.head? = some (.ok ()) →
      env.ftruncate_rs.head? = some (.ok ()) → env.write_rs.head? = some (.err e) →
      contents ≠ [] →
      (lock_pid_file_nogil env cloexec contents file0).result = .err (some e) "write to")
    ∧ raise_errno (some s) (some EINTR) msg = .signalExc s
    ∧ raise_errno none (some EINTR) msg = .extraSafe msg (some EINTR) := by
  refine ⟨?_, ?_, ?_, ?_, ?_, ?_⟩
  · intro h1
    have hc : nogil_core env contents file0
        = (.err (some e) "open or create", file0, false, false, false) := by
      unfold nogil_core
      rw [h1]
    exact ⟨by simp [lock_pid_file_nogil, hc], by simp [lock_pid_file_nogil, hc]⟩
  · intro h1 h2
    have hc : nogil_core env contents file0
        = (.err (some e) "file lock", file0, true, false, false) := by
      unfold nogil_core
      rw [h1, h2]
    exact ⟨by simp [lock_pid_file_nogil, hc], by simp [lock_pid_file_nogil, hc]⟩
  · intro h1 h2 h3
    have hc : nogil_core env contents file0
        = (.err (some e) "truncate", file0, true, true, false) := by
      unfold nogil_core
      rw [h1, h2, h3]
    exact ⟨by simp [lock_pid_file_nogil, hc], by simp [lock_pid_file_nogil, hc]⟩
  · intro h1 h2 h3 h4 h5
    cases henv : env.write_rs with
    | nil => rw [henv] at h4; simp at h4
    | cons w rest =>
      rw [henv] at h4
      simp only [List.head?_cons, Option.some.injEq] at h4
      subst h4
      cases contents with
      | nil => exact absurd rfl h5
      | cons c cs =>
        have hc : nogil_core env (c :: cs) file0
            = (.err (some e) "write to", joinl [], true, true, true) := by
          unfold nogil_core
          rw [h1, h2, h3, henv]
          rfl
        simp [lock_pid_file_nogil, hc, joinl]
  · simp [raise_errno]
  · simp [raise_errno]

/-- Witness for the amended C2: a concrete `flock` interrupted by a signal,
and `raise_errno` honoring resp. not needing a pending signal exception. -/
theorem eintr_surfaced_after_check_signals_witness :
    ((lock_pid_file_nogil ⟨[.ok ()], [.error EINTR], [.ok ()], [.ok 1]⟩ true [7] []).result
        = .err (some EINTR) "file lock"
      ∧ (lock_pid_file_nogil ⟨[.ok ()], [.error EINTR], [.ok ()], [.ok 1]⟩
          true [7] []).ftruncateCalled = false)
    ∧ raise_errno (some 11) (some EINTR) "file lock" = .signalExc 11
    ∧ raise_errno none (some EINTR) "file lock" = .extraSafe "file lock" (some EINTR) := by
  obtain ⟨h1, h2, h3, h4, h5, h6⟩ :=
    eintr_surfaced_after_check_signals ⟨[.ok ()], [.error EINTR], [.ok ()], [.ok 1]⟩
      true [7] [] EINTR 11 "file lock"
  exact ⟨h2 rfl rfl, h5, h6⟩

/-- Congruence of the `to_context` fold: the result depends only on the
current rule-set values stored at the context's indices. -/
theorem to_context_go_congr (fail : List (List PCall) → List PCall → Bool)
    (heap heap2 : List DataRuleSet) :
    ∀ ctx acc, (∀ i ∈ ctx, heap[i]? = heap2[i]?) →
      to_context_go fail heap ctx acc = to_context_go fail heap2 ctx acc := by
  intro ctx
  induction ctx with
  | nil => intro acc _; rfl
  | cons i rest ih =>
    intro acc h
    have hi : heap[i]? = heap2[i]? := h i (List.mem_cons_self i rest)
    simp only [to_context_go, ← hi]
    cases hh : heap[i]? with
    | none => rfl
    | some r =>
      by_cases hf : fail acc (build_policy r)
      · simp [hf]
      · simp only [hf, if_neg, Bool.false_eq_true, not_false_eq_true]
        exact ih _ (fun j hj => h j (List.mem_cons_of_mem i hj))

/-- C1 counterexample: a concrete context in which a Threads rule set is
enabled and then mutated through its builder (`allow_sleep`).  The policy
later built by `to_context` from the stored sequence differs from the one
built from the unmutated rule set — the stored entry is a shared reference
(the `Py<PyRuleSet>` pointer appended by `PyList::append`), not a value
copy, so the claim is false at this input. -/
theorem enable_shares_reference_cex :
    to_context (fun _ _ => false)
        [DataRuleSet.PyThreads (threads_allow_sleep ⟨0⟩)] (ctx_enable [] 0)
      ≠ to_context (fun _ _ => false)
        [DataRuleSet.PyThreads ⟨0⟩] (ctx_enable [] 0) := by
  decide

/-- C1 amended: `SafetyContext.enable(ruleset)` appends a shared reference
to the rule-set object (returning the context for chaining), and the policy
a later apply builds is determined by the rule sets' current values at the
stored indices — so mutating a rule set after `enable` does change the
later-built policy, and two heaps that agree on the stored entries yield
the same policy. -/
theorem to_context_reads_current_rulesets
    (fail : List (List PCall) → List PCall → Bool)
    (heap heap2 : List DataRuleSet) (ctx : List Nat) (r : Nat)
    (h : ∀ i ∈ ctx_enable ctx r, heap[i]? = heap2[i]?) :
    ctx_enable ctx r = ctx ++ [r]
    ∧ to_context fail heap (ctx_enable ctx r) = to_context fail heap2 (ctx_enable ctx r) :=
  ⟨rfl, to_context_go_congr fail heap heap2 (ctx_enable ctx r) [] h⟩

/-- Witness for the amended C1: two heaps agreeing on the single stored
entry (but not elsewhere) yield the same built policy. -/
theorem to_context_reads_current_rulesets_witness :
    ctx_enable [] 0 = [] ++ [0]
    ∧ to_context (fun _ _ => false)
        [DataRuleSet.PyThreads ⟨1⟩, DataRuleSet.PyTime ⟨1⟩] (ctx_enable [] 0)
      = to_context (fun _ _ => false)
        [DataRuleSet.PyThreads ⟨1⟩, DataRuleSet.PyTime ⟨0⟩] (ctx_enable [] 0) :=
  to_context_reads_current_rulesets (fun _ _ => false)
    [DataRuleSet.PyThreads ⟨1⟩, DataRuleSet.PyTime ⟨1⟩]
    [DataRuleSet.PyThreads ⟨1⟩, DataRuleSet.PyTime ⟨0⟩] [] 0 (by decide)

/-- Splitting of the `to_context` fold over an appended context. -/
theorem to_context_go_append (fail : List (List PCall) → List PCall → Bool)
    (heap : List DataRuleSet) :
    ∀ l1 l2 acc, to_context_go fail heap (l1 ++ l2) acc
      = match to_context_go fail heap l1 acc with
        | .ok acc2 => to_context_go fail heap l2 acc2
        | .error e => .error e := by
  intro l1
  induction l1 with
  | nil => intro l2 acc; rfl
  | cons i rest ih =>
    intro l2 acc
    simp only [List.cons_append, to_context_go]
    cases heap[i]? with
    | none => rfl
    | some r =>
      by_cases hf : fail acc (build_policy r)
      · simp [hf]
      · simp only [hf, Bool.false_eq_true, if_neg, not_false_eq_true]
        exact ih l2 _

/-- Success shape of the fold: if every stored index resolves and no enable
is rejected, the result is the policies of the stored rule sets in
insertion order, appended to the accumulated context. -/
theorem to_context_go_all_ok (fail : List (List PCall) → List PCall → Bool)
    (heap : List DataRuleSet) (hfail : ∀ a p, fail a p = false) :
    ∀ (ctx : List Nat) (rs : List DataRuleSet) (acc : List (List PCall)),
      ctx.map (fun i => heap[i]?) = rs.map some →
      to_context_go fail heap ctx acc = .ok (acc ++ rs.map build_policy) := by
  intro ctx
  induction ctx with
  | nil =>
    intro rs acc h
    cases rs with
    | nil => simp [to_context_go]
    | cons r rs2 => simp at h
  | cons i rest ih =>
    intro rs acc h
    cases rs with
    | nil => simp at h
    | cons r rs2 =>
      simp only [List.map_cons, List.cons.injEq] at h
      obtain ⟨h1, h2⟩ := h
      simp only [to_context_go, h1, hfail, Bool.false_eq_true, if_neg,
        not_false_eq_true]
      rw [ih rs2 (acc ++ [build_policy r]) h2]
      simp

/-- C5: applying a SafetyContext folds the stored rule sets left-to-right in
insertion order through `enable_to` starting from the empty accumulating
policy; the fold aborts at the first rule set whose enable is rejected,
surfaces the error naming that offending rule set, is independent of the
remaining entries (they are not attempted), and neither apply method reaches
the kernel-installation step. -/
theorem to_context_aborts_at_first_failure
    (fail : List (List PCall) → List PCall → Bool)
    (install install2 : List (List PCall) → Bool)
    (heap : List DataRuleSet) (pre post : List Nat) (i : Nat) (r : DataRuleSet)
    (acc : List (List PCall))
    (hpre : to_context fail heap pre = .ok acc)
    (hr : heap[i]? = some r)
    (hfail : fail acc (build_policy r) = true) :
    to_context fail heap (pre ++ i :: post) = .error (.policy r)
    ∧ (apply_to_current_thread fail install heap (pre ++ i :: post)).2 = false
    ∧ (apply_to_all_threads fail install2 heap (pre ++ i :: post)).2 = false
    ∧ (∀ (fail2 : List (List PCall) → List PCall → Bool)
        (ctx : List Nat) (rs : List DataRuleSet),
        (∀ a p, fail2 a p = false) →
        ctx.map (fun j => heap[j]?) = rs.map some →
        to_context fail2 heap ctx = .ok (rs.map build_policy)) := by
  have habort : to_context fail heap (pre ++ i :: post) = .error (.policy r) := by
    unfold to_context at hpre ⊢
    rw [to_context_go_append, hpre]
    simp only [to_context_go, hr, hfail, if_pos]
  refine ⟨habort, ?_, ?_, ?_⟩
  · unfold apply_to_current_thread
    rw [habort]
  · unfold apply_to_all_threads
    rw [habort]
  · intro fail2 ctx rs hf2 hmap
    unfold to_context
    rw [to_context_go_all_ok fail2 heap hf2 ctx rs [] hmap]
    simp

/-- Witness for C5: a two-entry context whose second rule set is rejected;
the fold surfaces the error naming it, never looks at the (out-of-range)
remaining entries, no installation happens, and an all-accepting fold of
the same heap returns the policies in order. -/
theorem to_context_aborts_at_first_failure_witness :
    to_context (fun _ p => decide (p = [PCall.allow_create]))
        [DataRuleSet.PyThreads ⟨0⟩, DataRuleSet.PyThreads ⟨1⟩] ([0] ++ 1 :: [0, 7])
      = .error (.policy (DataRuleSet.PyThreads ⟨1⟩))
    ∧ (apply_to_current_thread (fun _ p => decide (p = [PCall.allow_create]))
        (fun _ => true)
        [DataRuleSet.PyThreads ⟨0⟩, DataRuleSet.PyThreads ⟨1⟩] ([0] ++ 1 :: [0, 7])).2 = false
    ∧ (apply_to_all_threads (fun _ p => decide (p = [PCall.allow_create]))
        (fun _ => true)
        [DataRuleSet.PyThreads ⟨0⟩, DataRuleSet.PyThreads ⟨1⟩] ([0] ++ 1 :: [0, 7])).2 = false
    ∧ to_context (fun _ _ => false)
        [DataRuleSet.PyThreads ⟨0⟩, DataRuleSet.PyThreads ⟨1⟩] [0, 1]
      = .ok ([DataRuleSet.PyThreads ⟨0⟩, DataRuleSet.PyThreads ⟨1⟩].map build_policy) := by
  obtain ⟨h1, h2, h3, h4⟩ :=
    to_context_aborts_at_first_failure
      (fun _ p => decide (p = [PCall.allow_create])) (fun _ => true) (fun _ => true)
      [DataRuleSet.PyThreads ⟨0⟩, DataRuleSet.PyThreads ⟨1⟩] [0] [0, 7] 1
      (DataRuleSet.PyThreads ⟨1⟩) [[]] (by decide) (by decide) (by decide)
  exact ⟨h1, h2, h3,
    h4 (fun _ _ => false) [0, 1] [DataRuleSet.PyThreads ⟨0⟩, DataRuleSet.PyThreads ⟨1⟩]
      (fun _ _ => rfl) (by decide)⟩

/-- Witness for the amended C3: the flags of a concrete call with
`cloexec = true`. -/
theorem openat2_flags_no_magiclinks_witness :
    (lock_pid_file_nogil ⟨[.ok ()], [.ok ()], [.ok ()], [.ok 1]⟩ true [3] []).resolveFlags
      = RESOLVE_NO_MAGICLINKS
    ∧ (lock_pid_file_nogil ⟨[.ok ()], [.ok ()], [.ok ()], [.ok 1]⟩ true [3] []).oflags
        &&& O_RDWR = O_RDWR
    ∧ (lock_pid_file_nogil ⟨[.ok ()], [.ok ()], [.ok ()], [.ok 1]⟩ true [3] []).oflags
        &&& O_CREAT = O_CREAT
    ∧ (lock_pid_file_nogil ⟨[.ok ()], [.ok ()], [.ok ()], [.ok 1]⟩ true [3] []).oflags
        &&& O_CLOEXEC = O_CLOEXEC
    ∧ refuses_magiclinks
        (lock_pid_file_nogil ⟨[.ok ()], [.ok ()], [.ok ()], [.ok 1]⟩ true [3] []).resolveFlags
      = true
    ∧ refuses_final_symlink
        (lock_pid_file_nogil ⟨[.ok ()], [.ok ()], [.ok ()], [.ok 1]⟩ true [3] []).oflags
        (lock_pid_file_nogil ⟨[.ok ()], [.ok ()], [.ok ()], [.ok 1]⟩ true [3] []).resolveFlags
      = false := by
  obtain ⟨h1, h2, h3, h4, h5, h6⟩ :=
    openat2_flags_no_magiclinks ⟨[.ok ()], [.ok ()], [.ok ()], [.ok 1]⟩ true [3] []
  exact ⟨h1, h2, h3, h4 rfl, h5, h6⟩
